import Mathlib

/-!
Verification of the `spdk-sys` build orchestration (`build.rs`).

The script runs a pipeline: ensure the `spdk` submodule checkout is present
(fetch when the `spdk/.git` marker is absent), run `./configure
--without-isal`, run `make` (with an extra build variable on aarch64),
aggregate every static archive from the two build-output directories into
`libspdk_fat.so` via a whole-archive `cc` invocation, and finally generate
bindings with bindgen, filtering a fixed set of macros, blocklisted
types/functions and one opaque type.

The embedding below models the script as a function from an environment
(the outcomes of the external commands, the directory contents, and the
ambient variables) to the ordered trace of invoked external commands plus
an outcome: `Except.ok` when the script returns normally, `Except.error`
when it panics (a failed `assert!`, `expect` or `unwrap`).
-/

namespace SpdkSys

/-- Rust `str::starts_with` on a string pattern: the pattern's characters are
a prefix of the string's characters. -/
def strStartsWith (s p : String) : Bool := p.data.isPrefixOf s.data

/-- Rust `str::ends_with` on a string pattern: the pattern's characters are
a suffix of the string's characters. -/
def strEndsWith (s p : String) : Bool := p.data.isSuffixOf s.data

/-- `bindgen::callbacks::MacroParsingBehavior`. -/
inductive MacroParsingBehavior where
  | Ignore
  | Default
  deriving DecidableEq

/-- The `IgnoreMacros` newtype from `build.rs`, wrapping the set of macro
names to ignore (a `HashSet<String>` in the source; membership is all that
is ever queried, so a list with `contains` is a faithful model). -/
structure IgnoreMacros where
  toSet : List String
  deriving DecidableEq

/-- The `ignored_macros` value constructed in `main`. -/
def ignoredMacros : IgnoreMacros :=
  ⟨["FP_INFINITE", "FP_NAN", "FP_NORMAL", "FP_SUBNORMAL", "FP_ZERO"]⟩

/-- `IgnoreMacros::will_parse_macro`: return `Ignore` exactly when the name
is in the wrapped set, `Default` otherwise. -/
def IgnoreMacros.willParseMacroImpl (self : IgnoreMacros) (name : String) :
    MacroParsingBehavior :=
  if self.toSet.contains name then MacroParsingBehavior.Ignore
  else MacroParsingBehavior.Default

/-- Modelled from the spec: bindgen's parser (external to this repository)
drops from its parsed macro output every macro for which the registered
parse callback answers `Ignore`, and keeps every macro for which it answers
`Default`. -/
def parsedMacroOutput (cb : IgnoreMacros) (input : List String) : List String :=
  input.filter (fun n => cb.willParseMacroImpl n == MacroParsingBehavior.Default)

/-- The `blocklist_item` pattern `"IPPORT_.*"` registered in `main`:
bindgen matches item patterns as anchored regexes, so this matches exactly
the names that begin with `IPPORT_`. -/
def matchesBlockedItemPattern (name : String) : Bool :=
  strStartsWith name "IPPORT_"

/-- The `blocklist_type` names registered in `main`, in registration order. -/
def blocklistedTypes : List String :=
  ["spdk_nvme_tcp_rsp", "spdk_nvme_tcp_cmd", "spdk_nvmf_fabric_prop_get_rsp",
   "spdk_nvmf_fabric_connect_rsp", "spdk_nvmf_fabric_connect_cmd",
   "spdk_nvmf_fabric_auth_send_cmd", "spdk_nvmf_fabric_auth_recv_cmd",
   "spdk_nvme_health_information_page", "spdk_nvme_ctrlr_data"]

/-- The `blocklist_function` names registered in `main`. -/
def blocklistedFunctions : List String := ["spdk_nvme_ctrlr_get_data"]

/-- The `opaque_type` names registered in `main`. -/
def opaqueTypes : List String := ["spdk_nvme_sgl_descriptor"]

/-- A name is blocklisted when it matches the item pattern or is one of the
blocklisted type or function names. -/
def inBlocklist (name : String) : Bool :=
  matchesBlockedItemPattern name || blocklistedTypes.contains name ||
    blocklistedFunctions.contains name

/-- A name is in the ignored-macro rule set. -/
def inIgnoredMacros (name : String) : Bool := ignoredMacros.toSet.contains name

/-- A name is in the opaque-type rule set. -/
def inOpaqueTypes (name : String) : Bool := opaqueTypes.contains name

/-- The `cargo:rustc-link-lib` names printed by `main`, in order. -/
def linkDirectives : List String :=
  ["spdk_fat", "aio", "numa", "uuid", "crypto", "stdc++", "ssl"]

/-- One entry of a build-output directory, as seen by `read_dir`: the
directory it lives in and its file name. `none` models an `OsString` file
name that is not valid UTF-8 (so `to_str()` returns `None`). -/
structure DirEntry where
  dir : String
  fileName : Option String
  deriving DecidableEq

/-- The path of an archive entry picked up by the scan, as passed to
`cc.arg(entry.path())`: directory joined with file name. -/
def entryPath (p : String × String) : String := p.1 ++ "/" ++ p.2

/-- The archive-selection loop of `build_from_source`, over the chained
entries of `spdk/build/lib` and `spdk/dpdk/build/lib`: for each entry,
`to_str().unwrap()` panics on a non-UTF-8 name (modelled as
`Except.error`); the exact name `libspdk_ut_mock.a` is skipped; names that
start with `lib` and end with `.a` are appended (as `(dir, name)` pairs, in
iteration order); everything else is skipped. -/
def selectArchives : List DirEntry → Except String (List (String × String))
  | [] => Except.ok []
  | ⟨_, none⟩ :: _ =>
      Except.error "called Option::unwrap() on a None value"
  | ⟨dir, some name⟩ :: rest =>
      if name = "libspdk_ut_mock.a" then selectArchives rest
      else if strStartsWith name "lib" && strEndsWith name ".a" then
        (selectArchives rest).map (fun l => (dir, name) :: l)
      else selectArchives rest

/-- The fixed arguments `cc` receives before the archive paths:
shared-object mode, the output path, the four system libraries, and the
whole-archive flag. -/
def ccBaseArgs (dst : String) : List String :=
  ["-shared", "-o", dst, "-laio", "-lnuma", "-luuid", "-lcrypto",
   "-Wl,--whole-archive"]

/-- The full `cc` argument list: the fixed prefix, then every selected
archive path, then the no-whole-archive flag. -/
def ccArgs (dst : String) (archivePaths : List String) : List String :=
  ccBaseArgs dst ++ archivePaths ++ ["-Wl,--no-whole-archive"]

/-- Modelled from the spec: the semantics of the external linker when
invoked in shared-object mode with archives bracketed between the
whole-archive and no-whole-archive flags — every symbol of every bracketed
archive is retained in the produced shared object. `symsOf` gives the
symbols exported by the archive at a given path. -/
def wholeArchiveExposed (symsOf : String → List String)
    (archivePaths : List String) : List String :=
  (archivePaths.map symsOf).flatten

/-- The arguments of the submodule fetch command
(`git submodule update --init --recursive`). -/
def gitSubmoduleArgs : List String :=
  ["submodule", "update", "--init", "--recursive"]

/-- The arguments of the configure invocation
(`bash ./configure --without-isal`). -/
def configureArgs : List String := ["./configure", "--without-isal"]

/-- The `DPDKBUILD_FLAGS` argument added to `make` on aarch64 only. -/
def dpdkGenericFlag : String := "DPDKBUILD_FLAGS=\"-Dplatform=generic\""

/-- The `make` argument list: on aarch64 the generic-platform build
variable followed by the jobs flag, otherwise just the jobs flag. -/
def makeArgs (aarch64 : Bool) (numJobs : String) : List String :=
  if aarch64 then [dpdkGenericFlag, "-j" ++ numJobs]
  else ["-j" ++ numJobs]

/-- An external command invocation performed by the script, with its
arguments where a claim depends on them. -/
inductive Invocation where
  | fetch (args : List String)
  | configure (args : List String)
  | make (args : List String)
  | link (args : List String)
  | bindgen
  deriving DecidableEq

/-- How the script aborts: `expectPanic` models `.expect(msg)` on a
spawn failure (`Err` from `status()`), `assertPanic` models a failed
`assert!(status.success(), msg, status)` carrying the captured non-zero
exit code, `unwrapPanic` models `to_str().unwrap()` on a `None`. -/
inductive BuildError where
  | expectPanic (msg : String)
  | assertPanic (msg : String) (exitCode : Int)
  | unwrapPanic
  deriving DecidableEq

/-- The environment the script runs in: ambient directories and variables,
the contents of the two archive directories, and the outcome of each
external command (`none` models a spawn failure, `some c` an exit with
code `c`; an exit status is successful exactly when the code is 0). -/
structure Env where
  currentDir : String
  outDir : String
  numJobs : String
  targetAarch64 : Bool
  gitDirExists : Bool
  fetchStatus : Option Int
  configureStatus : Option Int
  makeStatus : Option Int
  linkStatus : Option Int
  spdkLibNames : List (Option String)
  dpdkLibNames : List (Option String)
  deriving DecidableEq

/-- `src`: the current directory joined with `spdk`. -/
def srcDir (env : Env) : String := env.currentDir ++ "/spdk"

/-- `dst`: `$OUT_DIR/libspdk_fat.so`. -/
def dstPath (env : Env) : String := env.outDir ++ "/libspdk_fat.so"

/-- The chained directory entries scanned by the aggregation loop:
`spdk/build/lib` entries followed by `spdk/dpdk/build/lib` entries. -/
def archiveDirEntries (env : Env) : List DirEntry :=
  env.spdkLibNames.map (fun n => ⟨srcDir env ++ "/build/lib", n⟩) ++
    env.dpdkLibNames.map (fun n => ⟨srcDir env ++ "/dpdk/build/lib", n⟩)

/-- The submodule-fetch invocations: one fetch when the `spdk/.git` marker
directory is absent, none when it is present. The fetch's own status is
bound to `_` in the source and therefore ignored. -/
def fetchInvocations (env : Env) : List Invocation :=
  if env.gitDirExists then [] else [Invocation.fetch gitSubmoduleArgs]

/-- `build_from_source`: the ordered trace of external invocations together
with the outcome (normal return or panic). -/
def buildFromSource (env : Env) : List Invocation × Except BuildError Unit :=
  let t1 := fetchInvocations env ++ [Invocation.configure configureArgs]
  match env.configureStatus with
  | none => (t1, Except.error (BuildError.expectPanic "failed to configure"))
  | some code =>
    if code = 0 then
      let mArgs := makeArgs env.targetAarch64 env.numJobs
      let t2 := t1 ++ [Invocation.make mArgs]
      match env.makeStatus with
      | none => (t2, Except.error (BuildError.expectPanic "failed to make"))
      | some mcode =>
        if mcode = 0 then
          match selectArchives (archiveDirEntries env) with
          | Except.error _ => (t2, Except.error BuildError.unwrapPanic)
          | Except.ok sel =>
            let t3 := t2 ++
              [Invocation.link (ccArgs (dstPath env) (sel.map entryPath))]
            match env.linkStatus with
            | none =>
                (t3, Except.error
                  (BuildError.expectPanic "failed to generate libspdk_fat.so"))
            | some lcode =>
              if lcode = 0 then (t3, Except.ok ())
              else
                (t3, Except.error
                  (BuildError.assertPanic "failed to generate libspdk_fat.so"
                    lcode))
        else (t2, Except.error (BuildError.assertPanic "failed to make" mcode))
    else
      (t1, Except.error (BuildError.assertPanic "failed to configure" code))

/-- `main`: run `build_from_source`; when it returns normally the link
directives are printed and bindgen runs; when it panics nothing after it
runs. -/
def mainRun (env : Env) : List Invocation × Except BuildError Unit :=
  match buildFromSource env with
  | (t, Except.ok _) => (t ++ [Invocation.bindgen], Except.ok ())
  | (t, Except.error e) => (t, Except.error e)

/-- A run in which every external command succeeds and the two archive
directories hold the regression scenario of the spec: `libA.a` (exports
symbol X, references symbol Y) and `libB.a` (exports symbol Y). -/
def abEnv : Env :=
  { currentDir := "/work", outDir := "/out", numJobs := "4",
    targetAarch64 := false, gitDirExists := true, fetchStatus := some 0,
    configureStatus := some 0, makeStatus := some 0, linkStatus := some 0,
    spdkLibNames := [some "libA.a", some "libB.a"], dpdkLibNames := [] }

/-- The archive paths the aggregation selects in `abEnv`. -/
def abPaths : List String :=
  ["/work/spdk/build/lib/libA.a", "/work/spdk/build/lib/libB.a"]

/-- The symbol tables of the two archives of the regression scenario:
`libA.a` exports X (and references Y), `libB.a` exports Y. -/
def abSyms (p : String) : List String :=
  if p = "/work/spdk/build/lib/libA.a" then ["X"]
  else if p = "/work/spdk/build/lib/libB.a" then ["Y"]
  else []

/-- A run whose configure invocation exits with code 1. -/
def failEnv : Env :=
  { currentDir := "/work", outDir := "/out", numJobs := "4",
    targetAarch64 := false, gitDirExists := true, fetchStatus := some 0,
    configureStatus := some 1, makeStatus := some 0, linkStatus := some 0,
    spdkLibNames := [some "libA.a"], dpdkLibNames := [] }

/-- A successful run on the constrained (aarch64) architecture. -/
def aarchEnv : Env :=
  { currentDir := "/work", outDir := "/out", numJobs := "4",
    targetAarch64 := true, gitDirExists := true, fetchStatus := some 0,
    configureStatus := some 0, makeStatus := some 0, linkStatus := some 0,
    spdkLibNames := [some "libA.a"], dpdkLibNames := [] }

/-- A run with the version-control marker directory absent. -/
def noGitEnv : Env :=
  { currentDir := "/work", outDir := "/out", numJobs := "4",
    targetAarch64 := false, gitDirExists := false, fetchStatus := some 0,
    configureStatus := some 0, makeStatus := some 0, linkStatus := some 0,
    spdkLibNames := [some "libA.a"], dpdkLibNames := [] }

/-- A run whose second spdk archive-directory entry has a non-UTF-8 name. -/
def badNameEnv : Env :=
  { currentDir := "/work", outDir := "/out", numJobs := "4",
    targetAarch64 := false, gitDirExists := true, fetchStatus := some 0,
    configureStatus := some 0, makeStatus := some 0, linkStatus := some 0,
    spdkLibNames := [some "libA.a", none], dpdkLibNames := [] }

/-! ## Helper lemmas -/

lemma mem_fetchInvocations {env : Env} {inv : Invocation}
    (h : inv ∈ fetchInvocations env) :
    inv = Invocation.fetch gitSubmoduleArgs ∧ env.gitDirExists = false := by
  unfold fetchInvocations at h
  cases hg : env.gitDirExists
  · rw [hg] at h
    simp at h
    exact ⟨h, rfl⟩
  · rw [hg] at h
    simp at h

lemma fetch_mem_of_absent {env : Env} (h : env.gitDirExists = false) :
    Invocation.fetch gitSubmoduleArgs ∈ fetchInvocations env := by
  simp [fetchInvocations, h]

/-- Every invocation in the `build_from_source` trace is the fetch (only
when the marker is absent), the configure call, the make call with the
architecture-determined arguments, or the link call with the aggregated
argument list (only when the archive scan succeeded). -/
lemma mem_buildFromSource_trace {env : Env} {inv : Invocation}
    (h : inv ∈ (buildFromSource env).1) :
    (inv = Invocation.fetch gitSubmoduleArgs ∧ env.gitDirExists = false) ∨
    inv = Invocation.configure configureArgs ∨
    inv = Invocation.make (makeArgs env.targetAarch64 env.numJobs) ∨
    (∃ sel, selectArchives (archiveDirEntries env) = Except.ok sel ∧
      inv = Invocation.link (ccArgs (dstPath env) (sel.map entryPath))) := by
  unfold buildFromSource at h
  repeat' split at h
  all_goals
    simp only [List.mem_append, List.mem_singleton, List.mem_cons,
      List.not_mem_nil, or_false] at h
  all_goals
    first
    | (rcases h with ((h | h) | h) | h
       · exact Or.inl (mem_fetchInvocations h)
       · exact Or.inr (Or.inl h)
       · exact Or.inr (Or.inr (Or.inl h))
       · exact Or.inr (Or.inr (Or.inr ⟨_, by assumption, h⟩)))
    | (rcases h with (h | h) | h
       · exact Or.inl (mem_fetchInvocations h)
       · exact Or.inr (Or.inl h)
       · exact Or.inr (Or.inr (Or.inl h)))
    | (rcases h with h | h
       · exact Or.inl (mem_fetchInvocations h)
       · exact Or.inr (Or.inl h))

/-- The configure invocation is in the trace of every run. -/
lemma configure_mem_trace (env : Env) :
    Invocation.configure configureArgs ∈ (buildFromSource env).1 := by
  unfold buildFromSource
  repeat' split
  all_goals simp

/-- When the marker directory is absent, the fetch is in the trace. -/
lemma fetch_mem_trace {env : Env} (h : env.gitDirExists = false) :
    Invocation.fetch gitSubmoduleArgs ∈ (buildFromSource env).1 := by
  unfold buildFromSource
  repeat' split
  all_goals simp [fetchInvocations, h]

/-- When configure exits with a non-zero code the whole run stops there:
the trace ends at the configure invocation and the outcome is the
assertion panic carrying that code. -/
lemma mainRun_configure_fail {env : Env} {c : Int}
    (hc : env.configureStatus = some c) (h0 : c ≠ 0) :
    mainRun env =
      (fetchInvocations env ++ [Invocation.configure configureArgs],
        Except.error (BuildError.assertPanic "failed to configure" c)) := by
  unfold mainRun buildFromSource
  rw [hc]
  simp [h0]

/-- The generic-platform build variable is among the make arguments exactly
on aarch64. -/
lemma dpdkGenericFlag_mem_makeArgs (b : Bool) (j : String) :
    dpdkGenericFlag ∈ makeArgs b j ↔ b = true := by
  cases b
  · simp only [makeArgs, if_neg Bool.false_ne_true, List.mem_singleton]
    constructor
    · intro hcontra
      have h1 : dpdkGenericFlag.data.head? = ("-j" ++ j).data.head? := by
        rw [hcontra]
      rw [String.data_append] at h1
      have h2 : ("-j" : String).data = ['-', 'j'] := rfl
      have h3 : dpdkGenericFlag.data.head? = some 'D' := rfl
      rw [h2] at h1
      rw [h3] at h1
      simp at h1
    · intro hcontra
      exact absurd hcontra (by decide)
  · simp [makeArgs]

/-- Every selected archive path contains a slash (it is a directory joined
with a file name). -/
lemma slash_mem_entryPath (p : String × String) : '/' ∈ (entryPath p).data := by
  have h2 : ("/" : String).data = ['/'] := rfl
  simp [entryPath, String.data_append, h2]

/-- A selected archive path never equals a string with no slash in it. -/
lemma entryPath_ne_of_no_slash (p : String × String) {s : String}
    (hs : '/' ∉ s.data) : entryPath p ≠ s := by
  intro hcontra
  exact hs (hcontra ▸ slash_mem_entryPath p)

/-! ## Claims -/

/-- C1: when the archive scan over the chained entries of the two
build-output directories returns normally, an entry is in the discovered
archive set exactly when it occurs in the scanned directories with a file
name that starts with `lib`, ends with `.a`, and is not the denylisted
`libspdk_ut_mock.a`; entries not matching the naming convention are never
included. -/
theorem selectArchives_mem_iff
    (entries : List DirEntry) (sel : List (String × String))
    (h : selectArchives entries = Except.ok sel) (d n : String) :
    (d, n) ∈ sel ↔
      ((⟨d, some n⟩ : DirEntry) ∈ entries ∧ strStartsWith n "lib" = true ∧
        strEndsWith n ".a" = true ∧ n ≠ "libspdk_ut_mock.a") := by
  induction entries generalizing sel with
  | nil =>
    simp only [selectArchives] at h
    injection h with h2
    subst h2
    simp
  | cons e rest ih =>
    obtain ⟨dir, fn⟩ := e
    cases fn with
    | none => simp [selectArchives] at h
    | some m =>
      simp only [selectArchives] at h
      by_cases hdeny : m = "libspdk_ut_mock.a"
      · rw [if_pos hdeny] at h
        rw [ih sel h]
        constructor
        · rintro ⟨hm, h1, h2, h3⟩
          exact ⟨List.mem_cons_of_mem _ hm, h1, h2, h3⟩
        · rintro ⟨hm, h1, h2, h3⟩
          rcases List.mem_cons.mp hm with heq | hm2
          · injection heq with hd hfn
            injection hfn with hnm
            subst hnm
            exact absurd hdeny h3
          · exact ⟨hm2, h1, h2, h3⟩
      · rw [if_neg hdeny] at h
        by_cases hb : (strStartsWith m "lib" && strEndsWith m ".a") = true
        · rw [if_pos hb] at h
          cases hrest : selectArchives rest with
          | error msg =>
            rw [hrest] at h
            simp [Except.map] at h
          | ok sel2 =>
            rw [hrest] at h
            simp only [Except.map] at h
            injection h with h2
            subst h2
            rw [Bool.and_eq_true] at hb
            constructor
            · intro hmem
              rcases List.mem_cons.mp hmem with heq | hmem2
              · injection heq with h4 h5
                subst h4
                subst h5
                exact ⟨List.mem_cons_self _ _, hb.1, hb.2, hdeny⟩
              · obtain ⟨hm, h1, h2, h3⟩ := (ih sel2 hrest).mp hmem2
                exact ⟨List.mem_cons_of_mem _ hm, h1, h2, h3⟩
            · rintro ⟨hm, h1, h2, h3⟩
              rcases List.mem_cons.mp hm with heq | hm2
              · injection heq with hd hfn
                injection hfn with hnm
                subst hd
                subst hnm
                exact List.mem_cons_self _ _
              · exact List.mem_cons_of_mem _
                  ((ih sel2 hrest).mpr ⟨hm2, h1, h2, h3⟩)
        · rw [if_neg hb] at h
          rw [ih sel h]
          constructor
          · rintro ⟨hm, h1, h2, h3⟩
            exact ⟨List.mem_cons_of_mem _ hm, h1, h2, h3⟩
          · rintro ⟨hm, h1, h2, h3⟩
            rcases List.mem_cons.mp hm with heq | hm2
            · injection heq with hd hfn
              injection hfn with hnm
              subst hnm
              exact absurd (by rw [h1, h2]; rfl : (strStartsWith n "lib" &&
                strEndsWith n ".a") = true) hb
            · exact ⟨hm2, h1, h2, h3⟩

/-- Witness for C1 on a synthetic directory mixing a matching name, the
denylisted name, a non-matching name, and a second matching name. -/
theorem selectArchives_mem_iff_witness :
    selectArchives
        [⟨"d", some "libA.a"⟩, ⟨"d", some "libspdk_ut_mock.a"⟩,
         ⟨"d", some "notes.txt"⟩, ⟨"d", some "libB.a"⟩] =
      Except.ok [("d", "libA.a"), ("d", "libB.a")] ∧
    (("d", "libA.a") ∈ [("d", "libA.a"), ("d", "libB.a")] ↔
      ((⟨"d", some "libA.a"⟩ : DirEntry) ∈
          [(⟨"d", some "libA.a"⟩ : DirEntry), ⟨"d", some "libspdk_ut_mock.a"⟩,
           ⟨"d", some "notes.txt"⟩, ⟨"d", some "libB.a"⟩] ∧
        strStartsWith "libA.a" "lib" = true ∧
        strEndsWith "libA.a" ".a" = true ∧
        "libA.a" ≠ "libspdk_ut_mock.a")) :=
  ⟨by rfl, selectArchives_mem_iff _ _ (by rfl) "d" "libA.a"⟩

/-- C2: every link invocation places all the included archive paths between
the whole-archive flag (the tail of the fixed prefix) and the
no-whole-archive flag (the final argument); consequently, under the
whole-archive linker semantics, in the scenario with archives `libA.a`
(exporting X, referencing Y) and `libB.a` (exporting Y) the aggregated
shared library exposes both X and Y. -/
theorem whole_archive_link_correct :
    (∀ (env : Env) (args : List String),
        Invocation.link args ∈ (buildFromSource env).1 →
        ∃ paths, args = ccBaseArgs (dstPath env) ++ paths ++
          ["-Wl,--no-whole-archive"]) ∧
    (Invocation.link (ccArgs (dstPath abEnv) abPaths) ∈
        (buildFromSource abEnv).1 ∧
      "X" ∈ wholeArchiveExposed abSyms abPaths ∧
      "Y" ∈ wholeArchiveExposed abSyms abPaths) := by
  constructor
  · intro env args h
    rcases mem_buildFromSource_trace h with ⟨heq, -⟩ | heq | heq | ⟨sel, hsel, heq⟩
    · simp at heq
    · simp at heq
    · simp at heq
    · injection heq with h2
      exact ⟨sel.map entryPath, by rw [h2]; rfl⟩
  · exact ⟨by decide, by decide, by decide⟩

/-- Witness for C2: the link invocation of the regression scenario, with
its hypothesis discharged by evaluation. -/
theorem whole_archive_link_correct_witness :
    ∃ paths, ccArgs (dstPath abEnv) abPaths =
      ccBaseArgs (dstPath abEnv) ++ paths ++ ["-Wl,--no-whole-archive"] :=
  whole_archive_link_correct.1 abEnv (ccArgs (dstPath abEnv) abPaths)
    (by decide)

/-- C3: when configure exits with a non-zero status the pipeline aborts
immediately: the outcome is the panic carrying the captured exit code, and
the trace contains no make invocation, no link invocation and no bindgen
invocation. -/
theorem configure_failure_aborts (env : Env) (c : Int)
    (hc : env.configureStatus = some c) (h0 : c ≠ 0) :
    (mainRun env).2 =
      Except.error (BuildError.assertPanic "failed to configure" c) ∧
    (∀ args, Invocation.make args ∉ (mainRun env).1) ∧
    (∀ args, Invocation.link args ∉ (mainRun env).1) ∧
    Invocation.bindgen ∉ (mainRun env).1 := by
  rw [mainRun_configure_fail hc h0]
  refine ⟨rfl, fun args => ?_, fun args => ?_, ?_⟩ <;>
    cases hg : env.gitDirExists <;> simp [fetchInvocations, hg]

/-- Witness for C3: in `failEnv`, configure exits with code 1 and the run
aborts with that code, never reaching bindgen. -/
theorem configure_failure_aborts_witness :
    (mainRun failEnv).2 =
      Except.error (BuildError.assertPanic "failed to configure" 1) ∧
    Invocation.bindgen ∉ (mainRun failEnv).1 :=
  ⟨(configure_failure_aborts failEnv 1 rfl (by decide)).1,
   (configure_failure_aborts failEnv 1 rfl (by decide)).2.2.2⟩

/-- C4: a make invocation in the trace carries the generic-codegen build
variable exactly when the target architecture is aarch64. -/
theorem make_generic_flag_iff_aarch64 (env : Env) (args : List String)
    (h : Invocation.make args ∈ (buildFromSource env).1) :
    dpdkGenericFlag ∈ args ↔ env.targetAarch64 = true := by
  rcases mem_buildFromSource_trace h with ⟨heq, -⟩ | heq | heq | ⟨sel, hsel, heq⟩
  · simp at heq
  · simp at heq
  · injection heq with h2
    subst h2
    exact dpdkGenericFlag_mem_makeArgs env.targetAarch64 env.numJobs
  · simp at heq

/-- Witness for C4: the aarch64 run invokes make with the variable. -/
theorem make_generic_flag_iff_aarch64_witness :
    dpdkGenericFlag ∈ makeArgs true "4" ↔ aarchEnv.targetAarch64 = true :=
  make_generic_flag_iff_aarch64 aarchEnv (makeArgs true "4") (by decide)

/-- The aggregated-library destination path always contains a slash. -/
lemma slash_mem_dstPath (env : Env) : '/' ∈ (dstPath env).data := by
  rw [dstPath, String.data_append]
  exact List.mem_append.mpr (Or.inr (by decide))

/-- A slash-free string distinct from the eight fixed flags is not among
the arguments of the aggregation command line. -/
lemma not_mem_ccArgs_of_no_slash {s : String} (hs : '/' ∉ s.data)
    (h1 : s ≠ "-shared") (h2 : s ≠ "-o") (h3 : s ≠ "-laio")
    (h4 : s ≠ "-lnuma") (h5 : s ≠ "-luuid") (h6 : s ≠ "-lcrypto")
    (h7 : s ≠ "-Wl,--whole-archive") (h8 : s ≠ "-Wl,--no-whole-archive")
    (env : Env) (sel : List (String × String)) :
    s ∉ ccArgs (dstPath env) (sel.map entryPath) := by
  intro hmem
  simp only [ccArgs, ccBaseArgs, List.mem_append, List.mem_cons,
    List.mem_singleton, List.not_mem_nil, or_false] at hmem
  rcases hmem with (hmem | hmem) | hmem
  · rcases hmem with h | h | h | h | h | h | h | h
    · exact h1 h
    · exact h2 h
    · rw [h] at hs
      exact hs (slash_mem_dstPath env)
    · exact h3 h
    · exact h4 h
    · exact h5 h
    · exact h6 h
    · exact h7 h
  · rcases List.mem_map.mp hmem with ⟨p, -, hp⟩
    exact entryPath_ne_of_no_slash p hs hp
  · exact h8 hmem

/-- C5: the parse callback answers `Ignore` exactly for the five
floating-point classification macro names, by exact-name match, and
`Default` otherwise; hence every ignored name is absent from the parsed
macro output. -/
theorem ignored_macro_filtering :
    (∀ name, ignoredMacros.willParseMacroImpl name =
        MacroParsingBehavior.Ignore ↔
      (name = "FP_INFINITE" ∨ name = "FP_NAN" ∨ name = "FP_NORMAL" ∨
        name = "FP_SUBNORMAL" ∨ name = "FP_ZERO")) ∧
    (∀ (input : List String) (name : String), name ∈ ignoredMacros.toSet →
      name ∉ parsedMacroOutput ignoredMacros input) := by
  constructor
  · intro name
    rw [IgnoreMacros.willParseMacroImpl]
    by_cases hmem : name ∈ ignoredMacros.toSet
    · rw [if_pos (List.elem_iff.mpr hmem)]
      simpa [ignoredMacros] using hmem
    · rw [if_neg (fun hc => hmem (List.elem_iff.mp hc))]
      have hnot : ¬(name = "FP_INFINITE" ∨ name = "FP_NAN" ∨
          name = "FP_NORMAL" ∨ name = "FP_SUBNORMAL" ∨ name = "FP_ZERO") := by
        simpa [ignoredMacros] using hmem
      simp [hnot]
  · intro input name hmem hcontra
    simp only [parsedMacroOutput] at hcontra
    rw [List.mem_filter] at hcontra
    obtain ⟨-, hkeep⟩ := hcontra
    rw [IgnoreMacros.willParseMacroImpl,
      if_pos (List.elem_iff.mpr hmem)] at hkeep
    exact absurd hkeep (by decide)

/-- Witness for C5: `FP_NAN` is ignored and filtered out of a parse input
that contains it. -/
theorem ignored_macro_filtering_witness :
    "FP_NAN" ∈ ignoredMacros.toSet ∧
    "FP_NAN" ∉ parsedMacroOutput ignoredMacros ["FP_NAN", "SPDK_OK"] :=
  ⟨by decide,
   ignored_macro_filtering.2 ["FP_NAN", "SPDK_OK"] "FP_NAN" (by decide)⟩

/-- C6: the recursive fetch is invoked exactly when the marker directory
`spdk/.git` is absent, and any fetch in the trace is that one submodule
command; with the marker present no fetch command is invoked. -/
theorem fetch_iff_marker_absent (env : Env) :
    (Invocation.fetch gitSubmoduleArgs ∈ (buildFromSource env).1 ↔
      env.gitDirExists = false) ∧
    (∀ args, Invocation.fetch args ∈ (buildFromSource env).1 →
      args = gitSubmoduleArgs) := by
  constructor
  · constructor
    · intro h
      rcases mem_buildFromSource_trace h with ⟨-, hg⟩ | heq | heq | ⟨sel, hsel, heq⟩
      · exact hg
      · simp at heq
      · simp at heq
      · simp at heq
    · exact fetch_mem_trace
  · intro args h
    rcases mem_buildFromSource_trace h with ⟨heq, -⟩ | heq | heq | ⟨sel, hsel, heq⟩
    · simpa using heq
    · simp at heq
    · simp at heq
    · simp at heq

/-- Witness for C6: with the marker absent the fetch is in the trace. -/
theorem fetch_iff_marker_absent_witness :
    Invocation.fetch gitSubmoduleArgs ∈ (buildFromSource noGitEnv).1 :=
  (fetch_iff_marker_absent noGitEnv).1.mpr rfl

/-- C7: the fetch outcome is never read: two runs differing only in the
fetch outcome (any exit status or a spawn failure) are identical, and the
configure stage is invoked in every run. -/
theorem fetch_outcome_nonfatal :
    (∀ (env : Env) (s1 s2 : Option Int),
      buildFromSource { env with fetchStatus := s1 } =
        buildFromSource { env with fetchStatus := s2 }) ∧
    (∀ env : Env,
      Invocation.configure configureArgs ∈ (buildFromSource env).1) :=
  ⟨fun _ _ _ => rfl, configure_mem_trace⟩

/-- C8: the three declaration-filter rule sets are pairwise disjoint: no
name is simultaneously in the ignored-macro set and the blocklist, in the
ignored-macro set and the opaque-type set, or in the blocklist and the
opaque-type set. -/
theorem filter_rule_sets_disjoint (name : String) :
    (inIgnoredMacros name && inBlocklist name) = false ∧
    (inIgnoredMacros name && inOpaqueTypes name) = false ∧
    (inBlocklist name && inOpaqueTypes name) = false := by
  have hign : inIgnoredMacros name = true → name = "FP_INFINITE" ∨
      name = "FP_NAN" ∨ name = "FP_NORMAL" ∨ name = "FP_SUBNORMAL" ∨
      name = "FP_ZERO" := by
    intro hi
    have hmem : name ∈ ignoredMacros.toSet := List.elem_iff.mp hi
    simpa [ignoredMacros] using hmem
  have hop : inOpaqueTypes name = true → name = "spdk_nvme_sgl_descriptor" := by
    intro ho
    have hmem : name ∈ opaqueTypes := List.elem_iff.mp ho
    simpa [opaqueTypes] using hmem
  refine ⟨?_, ?_, ?_⟩
  · cases hi : inIgnoredMacros name
    · rfl
    · rcases hign hi with rfl | rfl | rfl | rfl | rfl <;> decide
  · cases hi : inIgnoredMacros name
    · rfl
    · rcases hign hi with rfl | rfl | rfl | rfl | rfl <;> decide
  · cases ho : inOpaqueTypes name
    · simp
    · rw [hop ho]
      decide

/-- C9: every link invocation pulls in exactly the four system libraries
aio, numa, uuid and crypto (as the only `-l` flags, in the fixed prefix of
the command line); the C++ runtime and TLS libraries are among the link
directives emitted to the host build but never on the aggregation command
line. -/
theorem aggregation_system_libs (env : Env) (args : List String)
    (h : Invocation.link args ∈ (buildFromSource env).1) :
    (∃ sel, selectArchives (archiveDirEntries env) = Except.ok sel ∧
      args = ["-shared", "-o", dstPath env, "-laio", "-lnuma", "-luuid",
        "-lcrypto", "-Wl,--whole-archive"] ++ sel.map entryPath ++
        ["-Wl,--no-whole-archive"]) ∧
    "-lstdc++" ∉ args ∧ "-lssl" ∉ args ∧
    "stdc++" ∈ linkDirectives ∧ "ssl" ∈ linkDirectives := by
  rcases mem_buildFromSource_trace h with ⟨heq, -⟩ | heq | heq | ⟨sel, hsel, heq⟩
  · simp at heq
  · simp at heq
  · simp at heq
  · injection heq with h2
    subst h2
    refine ⟨⟨sel, hsel, rfl⟩, ?_, ?_, by decide, by decide⟩
    · exact not_mem_ccArgs_of_no_slash (by decide) (by decide) (by decide)
        (by decide) (by decide) (by decide) (by decide) (by decide)
        (by decide) env sel
    · exact not_mem_ccArgs_of_no_slash (by decide) (by decide) (by decide)
        (by decide) (by decide) (by decide) (by decide) (by decide)
        (by decide) env sel

/-- Witness for C9: the link invocation of the regression-scenario run. -/
theorem aggregation_system_libs_witness :
    "-lstdc++" ∉ ccArgs (dstPath abEnv) abPaths ∧
    "-lssl" ∉ ccArgs (dstPath abEnv) abPaths ∧
    "stdc++" ∈ linkDirectives ∧ "ssl" ∈ linkDirectives :=
  ⟨(aggregation_system_libs abEnv (ccArgs (dstPath abEnv) abPaths)
      (by decide)).2.1,
   (aggregation_system_libs abEnv (ccArgs (dstPath abEnv) abPaths)
      (by decide)).2.2.1,
   by decide, by decide⟩

/-- C10: a directory entry whose file name is not valid UTF-8 makes the
archive scan panic (it neither skips nor includes the entry), and in any
run whose archive directories contain such an entry the linker is never
invoked. -/
theorem non_utf8_entry_panics :
    (∀ (entries : List DirEntry) (e : DirEntry), e ∈ entries →
      e.fileName = none →
      ∃ msg, selectArchives entries = Except.error msg) ∧
    (∀ (env : Env) (args : List String),
      (∃ e ∈ archiveDirEntries env, e.fileName = none) →
      Invocation.link args ∉ (buildFromSource env).1) := by
  have herr : ∀ (entries : List DirEntry) (e : DirEntry), e ∈ entries →
      e.fileName = none →
      ∃ msg, selectArchives entries = Except.error msg := by
    intro entries
    induction entries with
    | nil =>
      intro e he
      simp at he
    | cons a rest ih =>
      intro e he hnone
      obtain ⟨dir, fn⟩ := a
      cases fn with
      | none => exact ⟨_, rfl⟩
      | some m =>
        rcases List.mem_cons.mp he with heq | hrest
        · subst heq
          simp at hnone
        · obtain ⟨msg, hmsg⟩ := ih e hrest hnone
          simp only [selectArchives]
          by_cases hdeny : m = "libspdk_ut_mock.a"
          · rw [if_pos hdeny]
            exact ⟨msg, hmsg⟩
          · rw [if_neg hdeny]
            by_cases hb : (strStartsWith m "lib" && strEndsWith m ".a") = true
            · rw [if_pos hb, hmsg]
              exact ⟨msg, rfl⟩
            · rw [if_neg hb]
              exact ⟨msg, hmsg⟩
  refine ⟨herr, ?_⟩
  rintro env args ⟨e, he, hnone⟩ hmem
  rcases mem_buildFromSource_trace hmem with ⟨heq, -⟩ | heq | heq | ⟨sel, hsel, heq⟩
  · simp at heq
  · simp at heq
  · simp at heq
  · obtain ⟨msg, hmsg⟩ := herr _ e he hnone
    rw [hmsg] at hsel
    simp at hsel

/-- Witness for C10: a directory with one valid and one non-UTF-8 entry
makes the scan panic, and the run never links. -/
theorem non_utf8_entry_panics_witness :
    (∃ msg, selectArchives [(⟨"d", some "libA.a"⟩ : DirEntry), ⟨"d", none⟩] =
      Except.error msg) ∧
    Invocation.link [] ∉ (buildFromSource badNameEnv).1 :=
  ⟨non_utf8_entry_panics.1 [⟨"d", some "libA.a"⟩, ⟨"d", none⟩] ⟨"d", none⟩
      (by decide) rfl,
   non_utf8_entry_panics.2 badNameEnv []
      ⟨⟨"/work/spdk/build/lib", none⟩, by decide, rfl⟩⟩

end SpdkSys
